import Mathlib

/-!
Verification of the swept-AABB 2D collision demo (Main.cpp of the
physics-sweptAABB2D repository).

The C++ source works with `float` values; the only non-finite values that
the program ever produces are `±infinity`, introduced explicitly in the
zero-velocity branches of `SweptAABB` via `std::numeric_limits<float>::infinity()`.
We therefore model a float holding an axis entry/exit time by the type
`TVal` (negative infinity, a finite rational, positive infinity), and all
other floats by rationals.  `std::max`/`std::min` on floats are
`(a < b) ? b : a` and `(b < a) ? b : a`; `TVal.bmax`/`TVal.bmin` below are
transcriptions of those.
-/

namespace SweptAABB2D

/-- `std::max` on floats: `(a < b) ? b : a`. -/
def fmax (a b : ℚ) : ℚ := if a < b then b else a

/-- `fabsf`. -/
def fabsf (a : ℚ) : ℚ := if a < 0 then -a else a

/-- 2D vector of rationals (models `glm::vec2`-like min/max corners). -/
structure Vec2 where
  x : ℚ
  y : ℚ
deriving DecidableEq, Repr

/-- 3D vector of rationals (models `glm::vec3`). -/
structure Vec3 where
  x : ℚ
  y : ℚ
  z : ℚ
deriving DecidableEq, Repr

/-- Axis-aligned bounding box, as in `GameObject.h`: a min and a max corner.
Only the x and y components are used by the 2D algorithm. -/
structure AABB where
  min : Vec2
  max : Vec2
deriving DecidableEq, Repr

/-- Well-formed box: `min ≤ max` on both axes (spec §3 invariant). -/
def WellFormed (b : AABB) : Prop :=
  b.min.x ≤ b.max.x ∧ b.min.y ≤ b.max.y

instance (b : AABB) : Decidable (WellFormed b) := by
  unfold WellFormed; infer_instance

/-- A float value as produced for the axis entry/exit times in `SweptAABB`:
either `-infinity`, a finite value, or `+infinity`. -/
inductive TVal where
  | neginf : TVal
  | fin (q : ℚ) : TVal
  | posinf : TVal
deriving DecidableEq, Repr

namespace TVal

/-- The float `<` comparison on our value set (no NaNs arise). -/
def lt : TVal → TVal → Prop
  | neginf, neginf => False
  | neginf, fin _ => True
  | neginf, posinf => True
  | fin _, neginf => False
  | fin a, fin b => a < b
  | fin _, posinf => True
  | posinf, _ => False

instance decLt : ∀ a b : TVal, Decidable (lt a b) := fun a b => by
  cases a <;> cases b <;> simp only [lt] <;> infer_instance

/-- `std::max(a, b)` for floats: `(a < b) ? b : a`. -/
def bmax (a b : TVal) : TVal := if lt a b then b else a

/-- `std::min(a, b)` for floats: `(b < a) ? b : a`. -/
def bmin (a b : TVal) : TVal := if lt b a then b else a

end TVal

/-! ## `SweptAABB` (Main.cpp lines 106–246)

`float SweptAABB(AABB* box1, AABB* box2, glm::vec3 vel1, float& normalx, float& normaly)`

`box1` is the moving box, `box2` the stationary one, `vel1` the moving
box's displacement for the tick.  The normals are reference (out)
parameters; in the exact-tie collision branch the source assigns neither,
so the embedding takes their incoming values and returns the final ones. -/

/-- Lines 116–125: x distance on the entry side, sign-flipped with the
direction of travel (`vel1.x > 0.0f`). -/
def xDistanceEntry (box1 box2 : AABB) (vel1 : Vec3) : ℚ :=
  if 0 < vel1.x then box2.min.x - box1.max.x else box2.max.x - box1.min.x

/-- Lines 116–125: x distance on the exit side. -/
def xDistanceExit (box1 box2 : AABB) (vel1 : Vec3) : ℚ :=
  if 0 < vel1.x then box2.max.x - box1.min.x else box2.min.x - box1.max.x

/-- Lines 127–136: y distance on the entry side. -/
def yDistanceEntry (box1 box2 : AABB) (vel1 : Vec3) : ℚ :=
  if 0 < vel1.y then box2.min.y - box1.max.y else box2.max.y - box1.min.y

/-- Lines 127–136: y distance on the exit side. -/
def yDistanceExit (box1 box2 : AABB) (vel1 : Vec3) : ℚ :=
  if 0 < vel1.y then box2.max.y - box1.min.y else box2.min.y - box1.max.y

/-- Lines 142–165: x entry time.  With zero x velocity: sentinel `2.0`
when `std::max(fabsf(entry), fabsf(exit))` exceeds the summed widths,
`-infinity` otherwise; with nonzero velocity, `distance / velocity`. -/
def xEntryTime (box1 box2 : AABB) (vel1 : Vec3) : TVal :=
  if vel1.x = 0 then
    if (box1.max.x - box1.min.x) + (box2.max.x - box2.min.x)
        < fmax (fabsf (xDistanceEntry box1 box2 vel1)) (fabsf (xDistanceExit box1 box2 vel1)) then
      TVal.fin 2
    else
      TVal.neginf
  else
    TVal.fin (xDistanceEntry box1 box2 vel1 / vel1.x)

/-- Lines 142–165: x exit time (`+infinity` when the x velocity is zero). -/
def xExitTime (box1 box2 : AABB) (vel1 : Vec3) : TVal :=
  if vel1.x = 0 then TVal.posinf
  else TVal.fin (xDistanceExit box1 box2 vel1 / vel1.x)

/-- Lines 167–184: y entry time. -/
def yEntryTime (box1 box2 : AABB) (vel1 : Vec3) : TVal :=
  if vel1.y = 0 then
    if (box1.max.y - box1.min.y) + (box2.max.y - box2.min.y)
        < fmax (fabsf (yDistanceEntry box1 box2 vel1)) (fabsf (yDistanceExit box1 box2 vel1)) then
      TVal.fin 2
    else
      TVal.neginf
  else
    TVal.fin (yDistanceEntry box1 box2 vel1 / vel1.y)

/-- Lines 167–184: y exit time. -/
def yExitTime (box1 box2 : AABB) (vel1 : Vec3) : TVal :=
  if vel1.y = 0 then TVal.posinf
  else TVal.fin (yDistanceExit box1 box2 vel1 / vel1.y)

/-- Line 188: `entryTime = std::max(xEntryTime, yEntryTime)`. -/
def entryTime (box1 box2 : AABB) (vel1 : Vec3) : TVal :=
  TVal.bmax (xEntryTime box1 box2 vel1) (yEntryTime box1 box2 vel1)

/-- Line 191: `exitTime = std::min(xExitTime, yExitTime)`. -/
def exitTime (box1 box2 : AABB) (vel1 : Vec3) : TVal :=
  TVal.bmin (xExitTime box1 box2 vel1) (yExitTime box1 box2 vel1)

/-- Line 197, with C's `&&`-binds-tighter-than-`||` grouping (Lean's `∧`
binds tighter than `∨`, the same relative precedence):
`entryTime > exitTime || xEntryTime < 0.0f && yEntryTime < 0.0f || xEntryTime > 1.0f || yEntryTime > 1.0f`. -/
def noCollision (box1 box2 : AABB) (vel1 : Vec3) : Prop :=
  TVal.lt (exitTime box1 box2 vel1) (entryTime box1 box2 vel1) ∨
    TVal.lt (xEntryTime box1 box2 vel1) (TVal.fin 0) ∧
      TVal.lt (yEntryTime box1 box2 vel1) (TVal.fin 0) ∨
    TVal.lt (TVal.fin 1) (xEntryTime box1 box2 vel1) ∨
    TVal.lt (TVal.fin 1) (yEntryTime box1 box2 vel1)

instance decNoCollision (box1 box2 : AABB) (vel1 : Vec3) :
    Decidable (noCollision box1 box2 vel1) := by
  unfold noCollision; infer_instance

/-- Result of `SweptAABB`: the returned float and the final values of the
two reference out-parameters. -/
structure SweptResult where
  time : TVal
  normalx : ℚ
  normaly : ℚ
deriving DecidableEq, Repr

/-- Lines 106–246: the swept test.  `normalx`/`normaly` are the values the
caller's floats hold before the call; the exact-tie collision branch
(neither `xEntryTime > yEntryTime` nor `yEntryTime > xEntryTime`) leaves
them untouched. -/
def SweptAABB (box1 box2 : AABB) (vel1 : Vec3) (normalx normaly : ℚ) : SweptResult :=
  if noCollision box1 box2 vel1 then
    { time := TVal.fin 2, normalx := 0, normaly := 0 }
  else
    if TVal.lt (yEntryTime box1 box2 vel1) (xEntryTime box1 box2 vel1) then
      if xDistanceEntry box1 box2 vel1 < 0 then
        { time := entryTime box1 box2 vel1, normalx := 1, normaly := 0 }
      else
        { time := entryTime box1 box2 vel1, normalx := -1, normaly := 0 }
    else if TVal.lt (xEntryTime box1 box2 vel1) (yEntryTime box1 box2 vel1) then
      if yDistanceEntry box1 box2 vel1 < 0 then
        { time := entryTime box1 box2 vel1, normalx := 0, normaly := 1 }
      else
        { time := entryTime box1 box2 vel1, normalx := 0, normaly := -1 }
    else
      { time := entryTime box1 box2 vel1, normalx := normalx, normaly := normaly }

/-! ## The game objects and the per-tick `update` (Main.cpp lines 249–329)

`GameObject.h` itself is not among the sources; the bodies' `Update` and
`CalculateAABB` methods are modelled from the spec (§3, §4.2). -/

/-- `vel * dt` for a `glm::vec3` and a scalar. -/
def Vec3.mulScalar (v : Vec3) (c : ℚ) : Vec3 :=
  ⟨v.x * c, v.y * c, v.z * c⟩

/-- A simulated body (spec §3 `Body`): position, velocity, scale and the
current bounding box. -/
structure GameObject where
  position : Vec3
  velocity : Vec3
  scale : Vec3
  aabb : AABB
deriving DecidableEq, Repr

/-- Modelled from the spec: `GameObject::Update(dt)` is declared in the
missing `GameObject.h`; per §2/§4.2 an update "advance[s] both bodies'
positions", i.e. the position moves by `velocity * dt` and nothing else
changes. -/
def GameObject.Update (g : GameObject) (dt : ℚ) : GameObject :=
  { g with position := ⟨g.position.x + g.velocity.x * dt,
                        g.position.y + g.velocity.y * dt,
                        g.position.z + g.velocity.z * dt⟩ }

/-- Modelled from the spec: `GameObject::CalculateAABB()` is declared in
the missing `GameObject.h`; per §3 the box is "recomputed ... from the
owning body's world transform (scale and translation)".  The shared square
model has corners `(±1, ±1)`, so the box is `position ± scale` on x and y. -/
def GameObject.CalculateAABB (g : GameObject) : GameObject :=
  { g with aabb := { min := ⟨g.position.x - g.scale.x, g.position.y - g.scale.y⟩,
                     max := ⟨g.position.x + g.scale.x, g.position.y + g.scale.y⟩ } }

/-- Lines 252–265: the world-boundary bounce on the moving object, applied
at the start of `update`.  The positions are read from the single
`tempPos` snapshot; the velocity is re-read before the y test, so an x
negation survives into the y branch. -/
def boundaryBounce (obj2 : GameObject) : GameObject :=
  let a := if 9/10 < fabsf obj2.position.x then
             { obj2 with velocity := ⟨-1 * obj2.velocity.x, obj2.velocity.y, obj2.velocity.z⟩ }
           else obj2
  if 4/5 < fabsf a.position.y then
    { a with velocity := ⟨a.velocity.x, -1 * a.velocity.y, a.velocity.z⟩ }
  else a

/-- Lines 295–306: reflect the local `velocity` copy along every axis
whose returned normal has magnitude above `0.0001f`. -/
def reflectByNormals (r : SweptResult) (v : Vec3) : Vec3 :=
  let a := if 1/10000 < fabsf r.normalx then ⟨v.x * -1, v.y, v.z⟩ else v
  if 1/10000 < fabsf r.normaly then ⟨a.x, a.y * -1, a.z⟩ else a

/-- The float returned by `SweptAABB` read back as a rational.  The
returned time is always finite (theorem `sweptAABB_time_fin` below), so
the defaults for the two infinite constructors are never exercised. -/
def timeAsRat : TVal → ℚ
  | TVal.fin q => q
  | TVal.neginf => 0
  | TVal.posinf => 0

/-- Lines 271–324 of `update`, after the boundary section: recompute both
AABBs, run the swept test (moving `obj2` first, stationary `obj1` second,
displacement `velocity * dt`), and advance in one or two sub-steps.
`nx0`/`ny0` are the values the caller's uninitialized `normalx`/`normaly`
locals happen to hold.  Returns the new `(obj1, obj2)`. -/
def updateAfterBoundary (nx0 ny0 : ℚ) (obj1 obj2b : GameObject) (dt : ℚ) :
    GameObject × GameObject :=
  let o1 := obj1.CalculateAABB
  let o2 := obj2b.CalculateAABB
  let r := SweptAABB o2.aabb o1.aabb (o2.velocity.mulScalar dt) nx0 ny0
  let collisionTime := timeAsRat r.time
  let remainingTime := 1 - collisionTime
  if 0 ≤ remainingTime then
    let velocity := reflectByNormals r o2.velocity
    let o1a := o1.Update (collisionTime * dt)
    let o2a := o2.Update (collisionTime * dt)
    let o2v := { o2a with velocity := velocity }
    (o1a.Update (remainingTime * dt), o2v.Update (remainingTime * dt))
  else
    (o1.Update dt, o2.Update dt)

/-- Lines 249–329: one physics tick.  `obj1` is the stationary body,
`obj2` the moving one. -/
def update (nx0 ny0 : ℚ) (obj1 obj2 : GameObject) (dt : ℚ) : GameObject × GameObject :=
  updateAfterBoundary nx0 ny0 obj1 (boundaryBounce obj2) dt

/-- A sequence of physics ticks; each list entry carries the junk values of
the caller's uninitialized normal locals and the tick's `dt`. -/
def runTicks : List (ℚ × ℚ × ℚ) → GameObject × GameObject → GameObject × GameObject
  | [], p => p
  | t :: rest, p => runTicks rest (update t.1 t.2.1 p.1 p.2 t.2.2)

/-- Lines 513–522 and 563–564 of `init`: the stationary body. -/
def initObj1 : GameObject :=
  GameObject.CalculateAABB
    { position := ⟨0, 0, 0⟩, velocity := ⟨0, 0, 0⟩,
      scale := ⟨1/4, 1/4, 1/4⟩, aabb := ⟨⟨0, 0⟩, ⟨0, 0⟩⟩ }

/-- Lines 513–522 and 563–564 of `init`: the moving body (`speed = 0.90f`). -/
def initObj2 : GameObject :=
  GameObject.CalculateAABB
    { position := ⟨7/10, 7/10, 0⟩, velocity := ⟨-(9/10), -(9/10), 0⟩,
      scale := ⟨1/20, 1/20, 1/20⟩, aabb := ⟨⟨0, 0⟩, ⟨0, 0⟩⟩ }

/-! ## The fixed-timestep scheduler `checkTime` (Main.cpp lines 332–379) -/

/-- Line 76: `double physicsStep = 0.012`. -/
def physicsStep : ℚ := 12/1000

/-- Lines 372–377: the catch-up loop.  Starting from an accumulator value,
count how many `update(physicsStep)` calls run and what is left in the
accumulator afterwards. -/
def drain (acc : ℚ) : ℕ × ℚ :=
  if h : physicsStep ≤ acc then
    let p := drain (acc - physicsStep)
    (p.1 + 1, p.2)
  else
    (0, acc)
termination_by (⌈acc / physicsStep⌉).toNat
decreasing_by
  have hs : (0:ℚ) < physicsStep := by norm_num [physicsStep]
  have key : ⌈(acc - physicsStep) / physicsStep⌉ = ⌈acc / physicsStep⌉ - 1 := by
    rw [sub_div, div_self (ne_of_gt hs)]
    exact_mod_cast Int.ceil_sub_int (acc / physicsStep) 1
  have hone : 1 ≤ ⌈acc / physicsStep⌉ := by
    rw [Int.le_ceil_iff]
    push_cast
    rw [lt_div_iff₀ hs]
    linarith
  omega

/-- Lines 332–379: one frame's worth of `checkTime`, as a function of the
current accumulator and the measured frame delta `dt = time - timebase`.
Nothing happens unless `dt > physicsStep`; then the delta is clamped to
`0.25` and added, and the catch-up loop runs.  (The FPS bookkeeping and
window-title update are external-collaborator concerns.)  Returns the
number of `update(physicsStep)` calls and the new accumulator. -/
def checkTime (acc dt : ℚ) : ℕ × ℚ :=
  if physicsStep < dt then
    let dtc := if 1/4 < dt then 1/4 else dt
    drain (acc + dtc)
  else
    (0, acc)

/-- Definition following the claim's words, not the source: "On every
frame, checkTime adds the measured elapsed time since the previous physics
update, clamped to at most 0.25 time-units, to the accumulator, then
invokes update(physicsStep) exactly once per fixed step while the
accumulator is at least physicsStep".  Used only to exhibit where the
source deviates from the claim. -/
def checkTimeClaimed (acc dt : ℚ) : ℕ × ℚ :=
  drain (acc + (if 1/4 < dt then 1/4 else dt))

/-! ## Shared lemmas about the swept test -/

theorem fmax_eq_max (a b : ℚ) : fmax a b = max a b := by
  unfold fmax
  rcases le_or_lt a b with h | h
  · rcases eq_or_lt_of_le h with rfl | h'
    · simp
    · simp [h', max_eq_right h]
  · simp [not_lt.mpr h.le, max_eq_left h.le]

theorem fabsf_eq_abs (a : ℚ) : fabsf a = |a| := by
  unfold fabsf
  rcases lt_or_le a 0 with h | h
  · simp [h, abs_of_neg h]
  · simp [not_lt.mpr h, abs_of_nonneg h]

theorem TVal.lt_irrefl (a : TVal) : ¬ TVal.lt a a := by
  cases a <;> simp [TVal.lt]

-- Sanity checks on concrete inputs.
example :
    SweptAABB ⟨⟨0, 0⟩, ⟨1, 1⟩⟩ ⟨⟨2, 0⟩, ⟨3, 1⟩⟩ ⟨2, 0, 0⟩ 5 7 =
      { time := TVal.fin (1/2), normalx := -1, normaly := 0 } := by
  norm_num [SweptAABB, noCollision, entryTime, exitTime, xEntryTime, yEntryTime,
    xExitTime, yExitTime, xDistanceEntry, xDistanceExit, yDistanceEntry, yDistanceExit,
    fmax, fabsf, TVal.lt, TVal.bmax, TVal.bmin]

example :
    SweptAABB ⟨⟨0, 0⟩, ⟨1, 1⟩⟩ ⟨⟨2, 2⟩, ⟨3, 3⟩⟩ ⟨2, 2, 0⟩ 5 7 =
      { time := TVal.fin (1/2), normalx := 5, normaly := 7 } := by
  norm_num [SweptAABB, noCollision, entryTime, exitTime, xEntryTime, yEntryTime,
    xExitTime, yExitTime, xDistanceEntry, xDistanceExit, yDistanceEntry, yDistanceExit,
    fmax, fabsf, TVal.lt, TVal.bmax, TVal.bmin]

example :
    SweptAABB ⟨⟨0, 0⟩, ⟨1, 1⟩⟩ ⟨⟨2, 2⟩, ⟨3, 3⟩⟩ ⟨0, 0, 0⟩ 5 7 =
      { time := TVal.fin 2, normalx := 0, normaly := 0 } := by
  norm_num [SweptAABB, noCollision, entryTime, exitTime, xEntryTime, yEntryTime,
    xExitTime, yExitTime, xDistanceEntry, xDistanceExit, yDistanceEntry, yDistanceExit,
    fmax, fabsf, TVal.lt, TVal.bmax, TVal.bmin]


theorem xEntryTime_ne_posinf (box1 box2 : AABB) (vel1 : Vec3) :
    xEntryTime box1 box2 vel1 ≠ TVal.posinf := by
  unfold xEntryTime; split_ifs <;> simp

theorem yEntryTime_ne_posinf (box1 box2 : AABB) (vel1 : Vec3) :
    yEntryTime box1 box2 vel1 ≠ TVal.posinf := by
  unfold yEntryTime; split_ifs <;> simp

/-- When the no-collision test fails, the combined entry time is a finite
value in `[0, 1]`. -/
theorem entryTime_bounds (box1 box2 : AABB) (vel1 : Vec3)
    (h : ¬ noCollision box1 box2 vel1) :
    ∃ q : ℚ, entryTime box1 box2 vel1 = TVal.fin q ∧ 0 ≤ q ∧ q ≤ 1 := by
  unfold noCollision at h
  simp only [not_or] at h
  obtain ⟨h1, h2, h3, h4⟩ := h
  unfold entryTime
  rcases hx : xEntryTime box1 box2 vel1 with _ | a | _
  · rcases hy : yEntryTime box1 box2 vel1 with _ | b | _
    · rw [hx, hy] at h2
      simp [TVal.lt] at h2
    · rw [hx, hy] at h2
      rw [hy] at h4
      simp only [TVal.lt, true_and, not_lt] at h2
      simp only [TVal.lt, not_lt] at h4
      refine ⟨b, ?_, h2, h4⟩
      simp [TVal.bmax, TVal.lt]
    · exact absurd hy (yEntryTime_ne_posinf box1 box2 vel1)
  · rcases hy : yEntryTime box1 box2 vel1 with _ | b | _
    · rw [hx, hy] at h2
      rw [hx] at h3
      simp only [TVal.lt, and_true, not_lt] at h2
      simp only [TVal.lt, not_lt] at h3
      refine ⟨a, ?_, h2, h3⟩
      simp [TVal.bmax, TVal.lt]
    · rw [hx, hy] at h2
      rw [hx] at h3
      rw [hy] at h4
      simp only [TVal.lt, not_and, not_lt] at h2
      simp only [TVal.lt, not_lt] at h3 h4
      simp only [TVal.bmax, TVal.lt]
      split_ifs with hab
      · refine ⟨b, rfl, ?_, h4⟩
        rcases lt_or_le a 0 with ha | ha
        · linarith [h2 ha]
        · linarith
      · refine ⟨a, rfl, ?_, h3⟩
        rcases lt_or_le a 0 with ha | ha
        · linarith [h2 ha]
        · exact ha
    · exact absurd hy (yEntryTime_ne_posinf box1 box2 vel1)
  · exact absurd hx (xEntryTime_ne_posinf box1 box2 vel1)

/-- In the collision branch the function returns the combined entry time. -/
theorem sweptAABB_time_of_collision (box1 box2 : AABB) (vel1 : Vec3) (nx ny : ℚ)
    (h : ¬ noCollision box1 box2 vel1) :
    (SweptAABB box1 box2 vel1 nx ny).time = entryTime box1 box2 vel1 := by
  unfold SweptAABB
  rw [if_neg h]
  split_ifs <;> rfl

/-- The float returned by `SweptAABB` is always finite: `2.0` without a
collision, the combined entry time (finite by `entryTime_bounds`) with one. -/
theorem sweptAABB_time_fin (box1 box2 : AABB) (vel1 : Vec3) (nx ny : ℚ) :
    ∃ q : ℚ, (SweptAABB box1 box2 vel1 nx ny).time = TVal.fin q := by
  by_cases h : noCollision box1 box2 vel1
  · refine ⟨2, ?_⟩
    unfold SweptAABB
    rw [if_pos h]
  · obtain ⟨q, hq, _, _⟩ := entryTime_bounds box1 box2 vel1 h
    exact ⟨q, by rw [sweptAABB_time_of_collision box1 box2 vel1 nx ny h]; exact hq⟩

/-! ## Claims about `SweptAABB` -/

/-- Claim C1: `SweptAABB` reports no collision — returning the sentinel
`2.0` and writing normal `(0, 0)` — if and only if
`(entryTime > exitTime) OR (xEntry < 0 AND yEntry < 0) OR (xEntry > 1) OR (yEntry > 1)`,
with exactly that grouping (the two negativity tests form a single AND
disjunct). -/
theorem sweptAABB_noCollision_iff (box1 box2 : AABB) (vel1 : Vec3) (nx ny : ℚ) :
    ((SweptAABB box1 box2 vel1 nx ny).time = TVal.fin 2 ∧
      (SweptAABB box1 box2 vel1 nx ny).normalx = 0 ∧
      (SweptAABB box1 box2 vel1 nx ny).normaly = 0) ↔
    (TVal.lt (exitTime box1 box2 vel1) (entryTime box1 box2 vel1) ∨
      (TVal.lt (xEntryTime box1 box2 vel1) (TVal.fin 0) ∧
        TVal.lt (yEntryTime box1 box2 vel1) (TVal.fin 0)) ∨
      TVal.lt (TVal.fin 1) (xEntryTime box1 box2 vel1) ∨
      TVal.lt (TVal.fin 1) (yEntryTime box1 box2 vel1)) := by
  constructor
  · intro hres
    by_contra hnc
    have hnc' : ¬ noCollision box1 box2 vel1 := hnc
    obtain ⟨q, hq, hq0, hq1⟩ := entryTime_bounds box1 box2 vel1 hnc'
    have ht := sweptAABB_time_of_collision box1 box2 vel1 nx ny hnc'
    rw [ht, hq] at hres
    have hq2 : q = 2 := by injection hres.1
    linarith
  · intro hc
    have hc' : noCollision box1 box2 vel1 := hc
    unfold SweptAABB
    rw [if_pos hc']
    exact ⟨rfl, rfl, rfl⟩

/-- Claim C2: whenever the no-collision condition fails, the returned value
is `max(xEntryTime, yEntryTime)`, it is a finite value in `[0, 1]`, and in
particular it is not the sentinel `2.0`. -/
theorem sweptAABB_collision_time (box1 box2 : AABB) (vel1 : Vec3) (nx ny : ℚ)
    (h : ¬ noCollision box1 box2 vel1) :
    (SweptAABB box1 box2 vel1 nx ny).time =
        TVal.bmax (xEntryTime box1 box2 vel1) (yEntryTime box1 box2 vel1) ∧
    (∃ q : ℚ, (SweptAABB box1 box2 vel1 nx ny).time = TVal.fin q ∧ 0 ≤ q ∧ q ≤ 1) ∧
    (SweptAABB box1 box2 vel1 nx ny).time ≠ TVal.fin 2 := by
  have ht := sweptAABB_time_of_collision box1 box2 vel1 nx ny h
  obtain ⟨q, hq, hq0, hq1⟩ := entryTime_bounds box1 box2 vel1 h
  refine ⟨ht, ⟨q, ?_, hq0, hq1⟩, ?_⟩
  · rw [ht]; exact hq
  · rw [ht, hq]
    intro hcon
    have : q = 2 := by injection hcon
    linarith

/-- Witness for C2: boxes `[0,1]²` and `[2,3]×[0,1]` with displacement
`(2, 0)` collide at `t = 1/2`. -/
theorem sweptAABB_collision_time_witness :
    ¬ noCollision ⟨⟨0, 0⟩, ⟨1, 1⟩⟩ ⟨⟨2, 0⟩, ⟨3, 1⟩⟩ ⟨2, 0, 0⟩ ∧
    (SweptAABB ⟨⟨0, 0⟩, ⟨1, 1⟩⟩ ⟨⟨2, 0⟩, ⟨3, 1⟩⟩ ⟨2, 0, 0⟩ 5 7).time = TVal.fin (1/2) := by
  have hnc : ¬ noCollision ⟨⟨0, 0⟩, ⟨1, 1⟩⟩ ⟨⟨2, 0⟩, ⟨3, 1⟩⟩ ⟨2, 0, 0⟩ := by
    norm_num [noCollision, entryTime, exitTime, xEntryTime, yEntryTime, xExitTime,
      yExitTime, xDistanceEntry, xDistanceExit, yDistanceEntry, yDistanceExit,
      fmax, fabsf, TVal.lt, TVal.bmax, TVal.bmin]
  refine ⟨hnc, ?_⟩
  rw [(sweptAABB_collision_time ⟨⟨0, 0⟩, ⟨1, 1⟩⟩ ⟨⟨2, 0⟩, ⟨3, 1⟩⟩ ⟨2, 0, 0⟩ 5 7 hnc).1]
  norm_num [xEntryTime, yEntryTime, xDistanceEntry, xDistanceExit, yDistanceEntry,
    yDistanceExit, fmax, fabsf, TVal.lt, TVal.bmax]

/-- Claim C4: on an axis with exactly zero displacement no division is
performed: the entry time is the sentinel `2.0` when
`max(|entryDistance|, |exitDistance|)` exceeds the summed widths and
`-infinity` otherwise, and the exit time is `+infinity`; the division
happens only for a nonzero displacement component (so the function is
total — division by zero is structurally avoided). -/
theorem sweptAABB_zero_axis (box1 box2 : AABB) (vel1 : Vec3) :
    (vel1.x = 0 →
      xEntryTime box1 box2 vel1 =
        (if (box1.max.x - box1.min.x) + (box2.max.x - box2.min.x) <
            max |xDistanceEntry box1 box2 vel1| |xDistanceExit box1 box2 vel1|
         then TVal.fin 2 else TVal.neginf) ∧
      xExitTime box1 box2 vel1 = TVal.posinf) ∧
    (vel1.x ≠ 0 →
      xEntryTime box1 box2 vel1 = TVal.fin (xDistanceEntry box1 box2 vel1 / vel1.x) ∧
      xExitTime box1 box2 vel1 = TVal.fin (xDistanceExit box1 box2 vel1 / vel1.x)) ∧
    (vel1.y = 0 →
      yEntryTime box1 box2 vel1 =
        (if (box1.max.y - box1.min.y) + (box2.max.y - box2.min.y) <
            max |yDistanceEntry box1 box2 vel1| |yDistanceExit box1 box2 vel1|
         then TVal.fin 2 else TVal.neginf) ∧
      yExitTime box1 box2 vel1 = TVal.posinf) ∧
    (vel1.y ≠ 0 →
      yEntryTime box1 box2 vel1 = TVal.fin (yDistanceEntry box1 box2 vel1 / vel1.y) ∧
      yExitTime box1 box2 vel1 = TVal.fin (yDistanceExit box1 box2 vel1 / vel1.y)) := by
  refine ⟨fun h => ⟨?_, ?_⟩, fun h => ⟨?_, ?_⟩, fun h => ⟨?_, ?_⟩, fun h => ⟨?_, ?_⟩⟩
  · unfold xEntryTime
    rw [if_pos h, fmax_eq_max, fabsf_eq_abs, fabsf_eq_abs]
  · unfold xExitTime
    rw [if_pos h]
  · unfold xEntryTime
    rw [if_neg h]
  · unfold xExitTime
    rw [if_neg h]
  · unfold yEntryTime
    rw [if_pos h, fmax_eq_max, fabsf_eq_abs, fabsf_eq_abs]
  · unfold yExitTime
    rw [if_pos h]
  · unfold yEntryTime
    rw [if_neg h]
  · unfold yExitTime
    rw [if_neg h]

/-- Witness for C4: with displacement `(0, 1)`, the x axis (zero
component, gap 4 exceeding summed widths 2) yields the sentinel `2.0` and
`+infinity`, and the y axis (nonzero component) yields the divisions. -/
theorem sweptAABB_zero_axis_witness :
    (xEntryTime ⟨⟨0, 0⟩, ⟨1, 1⟩⟩ ⟨⟨3, 0⟩, ⟨4, 1⟩⟩ ⟨0, 1, 0⟩ = TVal.fin 2 ∧
      xExitTime ⟨⟨0, 0⟩, ⟨1, 1⟩⟩ ⟨⟨3, 0⟩, ⟨4, 1⟩⟩ ⟨0, 1, 0⟩ = TVal.posinf) ∧
    (yEntryTime ⟨⟨0, 0⟩, ⟨1, 1⟩⟩ ⟨⟨3, 0⟩, ⟨4, 1⟩⟩ ⟨0, 1, 0⟩ = TVal.fin (-1) ∧
      yExitTime ⟨⟨0, 0⟩, ⟨1, 1⟩⟩ ⟨⟨3, 0⟩, ⟨4, 1⟩⟩ ⟨0, 1, 0⟩ = TVal.fin 1) := by
  have h := sweptAABB_zero_axis ⟨⟨0, 0⟩, ⟨1, 1⟩⟩ ⟨⟨3, 0⟩, ⟨4, 1⟩⟩ ⟨0, 1, 0⟩
  have hx := h.1 rfl
  have hy := h.2.2.2 (by norm_num)
  refine ⟨⟨?_, hx.2⟩, ⟨?_, ?_⟩⟩
  · rw [hx.1]
    norm_num [xDistanceEntry, xDistanceExit]
  · rw [hy.1]
    norm_num [yDistanceEntry]
  · rw [hy.2]
    norm_num [yDistanceExit]

/-- Claim C6: with a zero displacement vector (both components exactly
zero) `SweptAABB` returns the sentinel `2.0` and zeroed normals, whatever
the two boxes' relative position (including already-overlapping boxes). -/
theorem sweptAABB_zero_displacement (box1 box2 : AABB) (vel1 : Vec3) (nx ny : ℚ)
    (hx : vel1.x = 0) (hy : vel1.y = 0) :
    SweptAABB box1 box2 vel1 nx ny = { time := TVal.fin 2, normalx := 0, normaly := 0 } := by
  have hxv : xEntryTime box1 box2 vel1 = TVal.fin 2 ∨
      xEntryTime box1 box2 vel1 = TVal.neginf := by
    unfold xEntryTime
    rw [if_pos hx]
    split_ifs <;> simp
  have hyv : yEntryTime box1 box2 vel1 = TVal.fin 2 ∨
      yEntryTime box1 box2 vel1 = TVal.neginf := by
    unfold yEntryTime
    rw [if_pos hy]
    split_ifs <;> simp
  have hnc : noCollision box1 box2 vel1 := by
    unfold noCollision
    rcases hxv with hxv | hxv
    · right; right; left
      rw [hxv]
      show (1 : ℚ) < 2
      norm_num
    · rcases hyv with hyv | hyv
      · right; right; right
        rw [hyv]
        show (1 : ℚ) < 2
        norm_num
      · right; left
        rw [hxv, hyv]
        exact ⟨trivial, trivial⟩
  unfold SweptAABB
  rw [if_pos hnc]

/-- Witness for C6: already-overlapping unit boxes, zero displacement. -/
theorem sweptAABB_zero_displacement_witness :
    SweptAABB ⟨⟨0, 0⟩, ⟨1, 1⟩⟩ ⟨⟨0, 0⟩, ⟨1, 1⟩⟩ ⟨0, 0, 0⟩ 5 7 =
      { time := TVal.fin 2, normalx := 0, normaly := 0 } :=
  sweptAABB_zero_displacement ⟨⟨0, 0⟩, ⟨1, 1⟩⟩ ⟨⟨0, 0⟩, ⟨1, 1⟩⟩ ⟨0, 0, 0⟩ 5 7 rfl rfl

/-- Claim C7: in the collision branch with `xEntryTime` exactly equal to
`yEntryTime`, neither normal out-parameter is assigned — the result
carries whatever values the caller's locals already held — while the entry
time is still returned. -/
theorem sweptAABB_tie_keeps_normals (box1 box2 : AABB) (vel1 : Vec3) (nx ny : ℚ)
    (hcol : ¬ noCollision box1 box2 vel1)
    (htie : xEntryTime box1 box2 vel1 = yEntryTime box1 box2 vel1) :
    SweptAABB box1 box2 vel1 nx ny =
      { time := entryTime box1 box2 vel1, normalx := nx, normaly := ny } := by
  unfold SweptAABB
  rw [if_neg hcol, htie]
  rw [if_neg (TVal.lt_irrefl _), if_neg (TVal.lt_irrefl _)]

/-- Witness for C7: a diagonal approach with an exact tie
(`xEntryTime = yEntryTime = 1/2`); the caller's junk values `5` and `7`
survive the call. -/
theorem sweptAABB_tie_keeps_normals_witness :
    ¬ noCollision ⟨⟨0, 0⟩, ⟨1, 1⟩⟩ ⟨⟨2, 2⟩, ⟨3, 3⟩⟩ ⟨2, 2, 0⟩ ∧
    xEntryTime ⟨⟨0, 0⟩, ⟨1, 1⟩⟩ ⟨⟨2, 2⟩, ⟨3, 3⟩⟩ ⟨2, 2, 0⟩ =
      yEntryTime ⟨⟨0, 0⟩, ⟨1, 1⟩⟩ ⟨⟨2, 2⟩, ⟨3, 3⟩⟩ ⟨2, 2, 0⟩ ∧
    SweptAABB ⟨⟨0, 0⟩, ⟨1, 1⟩⟩ ⟨⟨2, 2⟩, ⟨3, 3⟩⟩ ⟨2, 2, 0⟩ 5 7 =
      { time := TVal.fin (1/2), normalx := 5, normaly := 7 } := by
  have hnc : ¬ noCollision ⟨⟨0, 0⟩, ⟨1, 1⟩⟩ ⟨⟨2, 2⟩, ⟨3, 3⟩⟩ ⟨2, 2, 0⟩ := by
    norm_num [noCollision, entryTime, exitTime, xEntryTime, yEntryTime, xExitTime,
      yExitTime, xDistanceEntry, xDistanceExit, yDistanceEntry, yDistanceExit,
      fmax, fabsf, TVal.lt, TVal.bmax, TVal.bmin]
  have htie : xEntryTime ⟨⟨0, 0⟩, ⟨1, 1⟩⟩ ⟨⟨2, 2⟩, ⟨3, 3⟩⟩ ⟨2, 2, 0⟩ =
      yEntryTime ⟨⟨0, 0⟩, ⟨1, 1⟩⟩ ⟨⟨2, 2⟩, ⟨3, 3⟩⟩ ⟨2, 2, 0⟩ := by
    norm_num [xEntryTime, yEntryTime, xDistanceEntry, yDistanceEntry]
  refine ⟨hnc, htie, ?_⟩
  rw [sweptAABB_tie_keeps_normals ⟨⟨0, 0⟩, ⟨1, 1⟩⟩ ⟨⟨2, 2⟩, ⟨3, 3⟩⟩ ⟨2, 2, 0⟩ 5 7 hnc htie]
  norm_num [entryTime, xEntryTime, yEntryTime, xDistanceEntry, yDistanceEntry,
    TVal.bmax, TVal.lt]

/-- With zero y displacement and overlapping y projections, the y axis
never rules out a collision: its entry time is `-infinity`. -/
theorem yEntryTime_neginf_of_overlap (box1 box2 : AABB) (vel1 : Vec3)
    (hy : vel1.y = 0) (ho1 : box1.min.y ≤ box2.max.y) (ho2 : box2.min.y ≤ box1.max.y) :
    yEntryTime box1 box2 vel1 = TVal.neginf := by
  have hvy : ¬ (0 < vel1.y) := by rw [hy]; exact lt_irrefl 0
  unfold yEntryTime
  rw [if_pos hy, if_neg ?hbound]
  case hbound =>
    unfold yDistanceEntry yDistanceExit
    rw [if_neg hvy, if_neg hvy, fmax_eq_max, fabsf_eq_abs, fabsf_eq_abs, not_lt]
    apply max_le
    · rw [abs_of_nonneg (by linarith)]
      linarith
    · rw [abs_of_nonpos (by linarith)]
      linarith

/-- With zero x displacement and overlapping x projections, the x axis
never rules out a collision: its entry time is `-infinity`. -/
theorem xEntryTime_neginf_of_overlap (box1 box2 : AABB) (vel1 : Vec3)
    (hx : vel1.x = 0) (ho1 : box1.min.x ≤ box2.max.x) (ho2 : box2.min.x ≤ box1.max.x) :
    xEntryTime box1 box2 vel1 = TVal.neginf := by
  have hvx : ¬ (0 < vel1.x) := by rw [hx]; exact lt_irrefl 0
  unfold xEntryTime
  rw [if_pos hx, if_neg ?hbound]
  case hbound =>
    unfold xDistanceEntry xDistanceExit
    rw [if_neg hvx, if_neg hvx, fmax_eq_max, fabsf_eq_abs, fabsf_eq_abs, not_lt]
    apply max_le
    · rw [abs_of_nonneg (by linarith)]
      linarith
    · rw [abs_of_nonpos (by linarith)]
      linarith

/-- On the motion axis, the entry time never exceeds the exit time
(well-formed boxes). -/
theorem xDiv_entry_le_exit (box1 box2 : AABB) (vel1 : Vec3)
    (hw1 : WellFormed box1) (hw2 : WellFormed box2) (hx : vel1.x ≠ 0) :
    xDistanceEntry box1 box2 vel1 / vel1.x ≤ xDistanceExit box1 box2 vel1 / vel1.x := by
  have hsub : xDistanceExit box1 box2 vel1 / vel1.x - xDistanceEntry box1 box2 vel1 / vel1.x
      = (xDistanceExit box1 box2 vel1 - xDistanceEntry box1 box2 vel1) / vel1.x :=
    (sub_div _ _ _).symm
  rcases lt_or_gt_of_ne hx with hneg | hpos
  · have hv : ¬ (0 < vel1.x) := not_lt.mpr hneg.le
    have hd : xDistanceExit box1 box2 vel1 - xDistanceEntry box1 box2 vel1
        = -((box1.max.x - box1.min.x) + (box2.max.x - box2.min.x)) := by
      unfold xDistanceEntry xDistanceExit
      rw [if_neg hv, if_neg hv]
      ring
    have hnn : 0 ≤ (xDistanceExit box1 box2 vel1 - xDistanceEntry box1 box2 vel1) / vel1.x := by
      rw [hd]
      exact div_nonneg_of_nonpos (by linarith [hw1.1, hw2.1]) hneg.le
    linarith [hsub ▸ hnn]
  · have hv : 0 < vel1.x := hpos
    have hd : xDistanceExit box1 box2 vel1 - xDistanceEntry box1 box2 vel1
        = (box1.max.x - box1.min.x) + (box2.max.x - box2.min.x) := by
      unfold xDistanceEntry xDistanceExit
      rw [if_pos hv, if_pos hv]
      ring
    have hnn : 0 ≤ (xDistanceExit box1 box2 vel1 - xDistanceEntry box1 box2 vel1) / vel1.x := by
      rw [hd]
      exact div_nonneg (by linarith [hw1.1, hw2.1]) hv.le
    linarith [hsub ▸ hnn]

/-- On the motion axis (y variant), the entry time never exceeds the exit
time (well-formed boxes). -/
theorem yDiv_entry_le_exit (box1 box2 : AABB) (vel1 : Vec3)
    (hw1 : WellFormed box1) (hw2 : WellFormed box2) (hy : vel1.y ≠ 0) :
    yDistanceEntry box1 box2 vel1 / vel1.y ≤ yDistanceExit box1 box2 vel1 / vel1.y := by
  have hsub : yDistanceExit box1 box2 vel1 / vel1.y - yDistanceEntry box1 box2 vel1 / vel1.y
      = (yDistanceExit box1 box2 vel1 - yDistanceEntry box1 box2 vel1) / vel1.y :=
    (sub_div _ _ _).symm
  rcases lt_or_gt_of_ne hy with hneg | hpos
  · have hv : ¬ (0 < vel1.y) := not_lt.mpr hneg.le
    have hd : yDistanceExit box1 box2 vel1 - yDistanceEntry box1 box2 vel1
        = -((box1.max.y - box1.min.y) + (box2.max.y - box2.min.y)) := by
      unfold yDistanceEntry yDistanceExit
      rw [if_neg hv, if_neg hv]
      ring
    have hnn : 0 ≤ (yDistanceExit box1 box2 vel1 - yDistanceEntry box1 box2 vel1) / vel1.y := by
      rw [hd]
      exact div_nonneg_of_nonpos (by linarith [hw1.2, hw2.2]) hneg.le
    linarith [hsub ▸ hnn]
  · have hv : 0 < vel1.y := hpos
    have hd : yDistanceExit box1 box2 vel1 - yDistanceEntry box1 box2 vel1
        = (box1.max.y - box1.min.y) + (box2.max.y - box2.min.y) := by
      unfold yDistanceEntry yDistanceExit
      rw [if_pos hv, if_pos hv]
      ring
    have hnn : 0 ≤ (yDistanceExit box1 box2 vel1 - yDistanceEntry box1 box2 vel1) / vel1.y := by
      rw [hd]
      exact div_nonneg (by linarith [hw1.2, hw2.2]) hv.le
    linarith [hsub ▸ hnn]

/-- Claim C5 (amended): for motion along a single axis toward the
stationary box with the orthogonal projections overlapping, a separating
gap `d ≥ 0` and `d / v ∈ [0, 1]` (here phrased as the directional
quotient `entryDistance / displacement`, which equals `d / v` in both
travel directions), `SweptAABB` returns `t = d / v` and a normal of
magnitude 1 on the motion axis whose sign follows the entry-distance
rule — negative entry distance gives `+1`, non-negative gives `-1`.  That
sign opposes the direction of travel whenever the entry distance is
nonzero; in the boundary case `entryDistance = 0` with negative-direction
motion the normal is `-1`, aligned with the travel direction (see the
counterexample). -/
theorem sweptAABB_axis_motion (box1 box2 : AABB) (vel1 : Vec3) (nx ny : ℚ)
    (hw1 : WellFormed box1) (hw2 : WellFormed box2) :
    (vel1.y = 0 → vel1.x ≠ 0 →
      box1.min.y ≤ box2.max.y → box2.min.y ≤ box1.max.y →
      0 ≤ xDistanceEntry box1 box2 vel1 / vel1.x →
      xDistanceEntry box1 box2 vel1 / vel1.x ≤ 1 →
      SweptAABB box1 box2 vel1 nx ny =
        { time := TVal.fin (xDistanceEntry box1 box2 vel1 / vel1.x),
          normalx := if xDistanceEntry box1 box2 vel1 < 0 then 1 else -1,
          normaly := 0 } ∧
      |(SweptAABB box1 box2 vel1 nx ny).normalx| = 1 ∧
      (xDistanceEntry box1 box2 vel1 ≠ 0 →
        (SweptAABB box1 box2 vel1 nx ny).normalx * vel1.x < 0)) ∧
    (vel1.x = 0 → vel1.y ≠ 0 →
      box1.min.x ≤ box2.max.x → box2.min.x ≤ box1.max.x →
      0 ≤ yDistanceEntry box1 box2 vel1 / vel1.y →
      yDistanceEntry box1 box2 vel1 / vel1.y ≤ 1 →
      SweptAABB box1 box2 vel1 nx ny =
        { time := TVal.fin (yDistanceEntry box1 box2 vel1 / vel1.y),
          normalx := 0,
          normaly := if yDistanceEntry box1 box2 vel1 < 0 then 1 else -1 } ∧
      |(SweptAABB box1 box2 vel1 nx ny).normaly| = 1 ∧
      (yDistanceEntry box1 box2 vel1 ≠ 0 →
        (SweptAABB box1 box2 vel1 nx ny).normaly * vel1.y < 0)) := by
  constructor
  · intro hy hx ho1 ho2 he0 he1
    have hyE := yEntryTime_neginf_of_overlap box1 box2 vel1 hy ho1 ho2
    have hyX : yExitTime box1 box2 vel1 = TVal.posinf := by
      unfold yExitTime; rw [if_pos hy]
    have hxE : xEntryTime box1 box2 vel1 =
        TVal.fin (xDistanceEntry box1 box2 vel1 / vel1.x) := by
      unfold xEntryTime; rw [if_neg hx]
    have hxX : xExitTime box1 box2 vel1 =
        TVal.fin (xDistanceExit box1 box2 vel1 / vel1.x) := by
      unfold xExitTime; rw [if_neg hx]
    have hent : entryTime box1 box2 vel1 =
        TVal.fin (xDistanceEntry box1 box2 vel1 / vel1.x) := by
      unfold entryTime; rw [hxE, hyE]; simp [TVal.bmax, TVal.lt]
    have hext : exitTime box1 box2 vel1 =
        TVal.fin (xDistanceExit box1 box2 vel1 / vel1.x) := by
      unfold exitTime; rw [hxX, hyX]; simp [TVal.bmin, TVal.lt]
    have hele := xDiv_entry_le_exit box1 box2 vel1 hw1 hw2 hx
    have hnc : ¬ noCollision box1 box2 vel1 := by
      unfold noCollision
      rw [hent, hext, hxE, hyE]
      simp only [TVal.lt]
      rintro (h | ⟨h, hfalse⟩ | h | h)
      · linarith
      · linarith
      · linarith
      · exact h
    have hbranch : TVal.lt (yEntryTime box1 box2 vel1) (xEntryTime box1 box2 vel1) := by
      rw [hyE, hxE]; trivial
    have hmain : SweptAABB box1 box2 vel1 nx ny =
        { time := TVal.fin (xDistanceEntry box1 box2 vel1 / vel1.x),
          normalx := if xDistanceEntry box1 box2 vel1 < 0 then 1 else -1,
          normaly := 0 } := by
      unfold SweptAABB
      rw [if_neg hnc, if_pos hbranch, hent]
      split_ifs <;> rfl
    refine ⟨hmain, ?_, ?_⟩
    · rw [hmain]
      by_cases hde : xDistanceEntry box1 box2 vel1 < 0
      · simp only [hde, if_pos]
        norm_num
      · simp only [hde, if_neg, if_false]
        norm_num
    · intro hde0
      rw [hmain]
      by_cases hde : xDistanceEntry box1 box2 vel1 < 0
      · simp only [hde, if_pos, one_mul]
        rcases lt_or_gt_of_ne hx with hneg | hpos
        · exact hneg
        · exact absurd he0 (not_le.mpr (div_neg_of_neg_of_pos hde hpos))
      · have hdepos : 0 < xDistanceEntry box1 box2 vel1 :=
          lt_of_le_of_ne (not_lt.mp hde) (Ne.symm hde0)
        simp only [hde, if_neg, if_false, neg_one_mul, neg_lt_zero]
        rcases lt_or_gt_of_ne hx with hneg | hpos
        · exact absurd he0 (not_le.mpr (div_neg_of_pos_of_neg hdepos hneg))
        · exact hpos
  · intro hx hy ho1 ho2 he0 he1
    have hxE := xEntryTime_neginf_of_overlap box1 box2 vel1 hx ho1 ho2
    have hxX : xExitTime box1 box2 vel1 = TVal.posinf := by
      unfold xExitTime; rw [if_pos hx]
    have hyE : yEntryTime box1 box2 vel1 =
        TVal.fin (yDistanceEntry box1 box2 vel1 / vel1.y) := by
      unfold yEntryTime; rw [if_neg hy]
    have hyX : yExitTime box1 box2 vel1 =
        TVal.fin (yDistanceExit box1 box2 vel1 / vel1.y) := by
      unfold yExitTime; rw [if_neg hy]
    have hent : entryTime box1 box2 vel1 =
        TVal.fin (yDistanceEntry box1 box2 vel1 / vel1.y) := by
      unfold entryTime; rw [hxE, hyE]; simp [TVal.bmax, TVal.lt]
    have hext : exitTime box1 box2 vel1 =
        TVal.fin (yDistanceExit box1 box2 vel1 / vel1.y) := by
      unfold exitTime; rw [hxX, hyX]; simp [TVal.bmin, TVal.lt]
    have hele := yDiv_entry_le_exit box1 box2 vel1 hw1 hw2 hy
    have hnc : ¬ noCollision box1 box2 vel1 := by
      unfold noCollision
      rw [hent, hext, hxE, hyE]
      simp only [TVal.lt]
      rintro (h | ⟨htriv, h⟩ | h | h)
      · linarith
      · linarith
      · exact h
      · linarith
    have hbranch1 : ¬ TVal.lt (yEntryTime box1 box2 vel1) (xEntryTime box1 box2 vel1) := by
      rw [hyE, hxE]; simp [TVal.lt]
    have hbranch2 : TVal.lt (xEntryTime box1 box2 vel1) (yEntryTime box1 box2 vel1) := by
      rw [hyE, hxE]; trivial
    have hmain : SweptAABB box1 box2 vel1 nx ny =
        { time := TVal.fin (yDistanceEntry box1 box2 vel1 / vel1.y),
          normalx := 0,
          normaly := if yDistanceEntry box1 box2 vel1 < 0 then 1 else -1 } := by
      unfold SweptAABB
      rw [if_neg hnc, if_neg hbranch1, if_pos hbranch2, hent]
      split_ifs <;> rfl
    refine ⟨hmain, ?_, ?_⟩
    · rw [hmain]
      by_cases hde : yDistanceEntry box1 box2 vel1 < 0
      · simp only [hde, if_pos]
        norm_num
      · simp only [hde, if_neg, if_false]
        norm_num
    · intro hde0
      rw [hmain]
      by_cases hde : yDistanceEntry box1 box2 vel1 < 0
      · simp only [hde, if_pos, one_mul]
        rcases lt_or_gt_of_ne hy with hneg | hpos
        · exact hneg
        · exact absurd he0 (not_le.mpr (div_neg_of_neg_of_pos hde hpos))
      · have hdepos : 0 < yDistanceEntry box1 box2 vel1 :=
          lt_of_le_of_ne (not_lt.mp hde) (Ne.symm hde0)
        simp only [hde, if_neg, if_false, neg_one_mul, neg_lt_zero]
        rcases lt_or_gt_of_ne hy with hneg | hpos
        · exact absurd he0 (not_le.mpr (div_neg_of_pos_of_neg hdepos hneg))
        · exact hpos

/-- Counterexample to C5 as stated: the moving box `[0,1]²` travels left
(displacement `(-1, 0)`) toward the touching box `[-1,0]×[0,1]` — the
claim's premises hold (one-axis motion, overlapping y projections, gap
`d = 0`, `d / v = 0 ∈ [0,1]`) — yet the returned normal is `(-1, 0)`,
whose sign does not oppose the (negative) direction of travel: the entry
distance is `0`, which is non-negative, so the code picks `-1`. -/
theorem sweptAABB_axis_motion_cex :
    xDistanceEntry ⟨⟨0, 0⟩, ⟨1, 1⟩⟩ ⟨⟨-1, 0⟩, ⟨0, 1⟩⟩ ⟨-1, 0, 0⟩ = 0 ∧
    SweptAABB ⟨⟨0, 0⟩, ⟨1, 1⟩⟩ ⟨⟨-1, 0⟩, ⟨0, 1⟩⟩ ⟨-1, 0, 0⟩ 5 7 =
      { time := TVal.fin 0, normalx := -1, normaly := 0 } ∧
    ¬ ((SweptAABB ⟨⟨0, 0⟩, ⟨1, 1⟩⟩ ⟨⟨-1, 0⟩, ⟨0, 1⟩⟩ ⟨-1, 0, 0⟩ 5 7).normalx *
        (Vec3.x ⟨-1, 0, 0⟩) < 0) := by
  have hmain : SweptAABB ⟨⟨0, 0⟩, ⟨1, 1⟩⟩ ⟨⟨-1, 0⟩, ⟨0, 1⟩⟩ ⟨-1, 0, 0⟩ 5 7 =
      { time := TVal.fin 0, normalx := -1, normaly := 0 } := by
    norm_num [SweptAABB, noCollision, entryTime, exitTime, xEntryTime, yEntryTime,
      xExitTime, yExitTime, xDistanceEntry, xDistanceExit, yDistanceEntry, yDistanceExit,
      fmax, fabsf, TVal.lt, TVal.bmax, TVal.bmin]
  refine ⟨by norm_num [xDistanceEntry], hmain, ?_⟩
  rw [hmain]
  norm_num

/-- Witness for the amended C5: rightward motion `(2, 0)` from `[0,1]²`
toward `[2,3]×[0,1]` across a gap of `1` hits at `t = 1/2` with normal
`(-1, 0)` opposing the travel. -/
theorem sweptAABB_axis_motion_witness :
    SweptAABB ⟨⟨0, 0⟩, ⟨1, 1⟩⟩ ⟨⟨2, 0⟩, ⟨3, 1⟩⟩ ⟨2, 0, 0⟩ 5 7 =
      { time := TVal.fin (1/2), normalx := -1, normaly := 0 } ∧
    (SweptAABB ⟨⟨0, 0⟩, ⟨1, 1⟩⟩ ⟨⟨2, 0⟩, ⟨3, 1⟩⟩ ⟨2, 0, 0⟩ 5 7).normalx *
      (Vec3.x ⟨2, 0, 0⟩) < 0 := by
  have h := (sweptAABB_axis_motion ⟨⟨0, 0⟩, ⟨1, 1⟩⟩ ⟨⟨2, 0⟩, ⟨3, 1⟩⟩ ⟨2, 0, 0⟩ 5 7
      (by constructor <;> norm_num) (by constructor <;> norm_num)).1
      rfl (by norm_num) (by norm_num) (by norm_num)
      (by norm_num [xDistanceEntry]) (by norm_num [xDistanceEntry])
  obtain ⟨hmain, hmag, hopp⟩ := h
  constructor
  · rw [hmain]
    norm_num [xDistanceEntry]
  · exact hopp (by norm_num [xDistanceEntry])

/-! ## Claims about `update` -/

theorem GameObject.Update_velocity (g : GameObject) (dt : ℚ) :
    (g.Update dt).velocity = g.velocity := rfl

theorem GameObject.CalculateAABB_velocity (g : GameObject) :
    (g.CalculateAABB).velocity = g.velocity := rfl

/-- The stationary body's part of `updateAfterBoundary` only ever moves
the position and recomputes the box; its velocity is untouched. -/
theorem updateAfterBoundary_fst_velocity (nx0 ny0 : ℚ) (obj1 obj2b : GameObject) (dt : ℚ) :
    (updateAfterBoundary nx0 ny0 obj1 obj2b dt).1.velocity = obj1.velocity := by
  simp only [updateAfterBoundary]
  split <;> rfl

theorem runTicks_fst_velocity (ticks : List (ℚ × ℚ × ℚ)) (p : GameObject × GameObject) :
    (runTicks ticks p).1.velocity = p.1.velocity := by
  induction ticks generalizing p with
  | nil => rfl
  | cons t rest ih =>
      rw [runTicks, ih]
      exact updateAfterBoundary_fst_velocity t.1 t.2.1 p.1 (boundaryBounce p.2) t.2.2

/-- Claim C9: `update` runs the boundary phase first (before the AABB
recomputation and the swept test); that phase never moves the body, and it
negates the x velocity exactly once when `|position.x| > 0.9`, negates the
y velocity exactly once when `|position.y| > 0.8` (independently), and
leaves the velocity unchanged when neither bound is exceeded. -/
theorem update_boundary_phase (nx0 ny0 : ℚ) (obj1 obj2 : GameObject) (dt : ℚ) :
    update nx0 ny0 obj1 obj2 dt =
      updateAfterBoundary nx0 ny0 obj1 (boundaryBounce obj2) dt ∧
    (boundaryBounce obj2).position = obj2.position ∧
    (boundaryBounce obj2).scale = obj2.scale ∧
    (boundaryBounce obj2).velocity.x =
      (if 9/10 < |obj2.position.x| then -obj2.velocity.x else obj2.velocity.x) ∧
    (boundaryBounce obj2).velocity.y =
      (if 4/5 < |obj2.position.y| then -obj2.velocity.y else obj2.velocity.y) ∧
    (boundaryBounce obj2).velocity.z = obj2.velocity.z := by
  by_cases hx : (9:ℚ)/10 < |obj2.position.x| <;>
    by_cases hy : (4:ℚ)/5 < |obj2.position.y| <;>
    refine ⟨rfl, ?_, ?_, ?_, ?_, ?_⟩ <;>
    simp [boundaryBounce, fabsf_eq_abs, hx, hy]

/-- Claim C10: no call to `update` writes the stationary body's velocity,
so from the zero velocity assigned at startup (`init`, `obj1`), the
stationary body's velocity stays the zero vector over every sequence of
ticks. -/
theorem update_keeps_obj1_velocity (nx0 ny0 : ℚ) (o1 o2 : GameObject) (dt : ℚ)
    (ticks : List (ℚ × ℚ × ℚ)) :
    (update nx0 ny0 o1 o2 dt).1.velocity = o1.velocity ∧
    (o1.velocity = ⟨0, 0, 0⟩ → (runTicks ticks (o1, o2)).1.velocity = ⟨0, 0, 0⟩) := by
  refine ⟨updateAfterBoundary_fst_velocity nx0 ny0 o1 (boundaryBounce o2) dt, fun h => ?_⟩
  rw [runTicks_fst_velocity]
  exact h

/-- Witness for C10: the startup configuration, three ticks with assorted
junk normal values. -/
theorem update_keeps_obj1_velocity_witness :
    initObj1.velocity = ⟨0, 0, 0⟩ ∧
    (runTicks [(5, 7, 12/1000), (0, 0, 12/1000), (-3, 11, 12/1000)]
        (initObj1, initObj2)).1.velocity = ⟨0, 0, 0⟩ :=
  ⟨rfl,
    (update_keeps_obj1_velocity 5 7 initObj1 initObj2 (12/1000)
      [(5, 7, 12/1000), (0, 0, 12/1000), (-3, 11, 12/1000)]).2 rfl⟩

/-- Claim C3: writing `o1` for the recomputed stationary body, `o2` for
the boundary-bounced and recomputed moving body and `r` for the swept-test
result with finite returned time `ct`: when `1 - ct ≥ 0`, `update` advances
both bodies by `ct * dt` with the pre-reflection velocity, then gives the
moving body the velocity reflected exactly on the axes where the returned
normal's magnitude exceeds `1e-4` (`reflectByNormals`), then advances both
bodies by `(1 - ct) * dt`; when `1 - ct < 0`, both bodies advance by the
full `dt` with their current velocities. -/
theorem update_split_response (nx0 ny0 : ℚ) (obj1 obj2 o1 o2 : GameObject) (dt ct : ℚ)
    (r : SweptResult)
    (h1 : o1 = obj1.CalculateAABB)
    (h2 : o2 = (boundaryBounce obj2).CalculateAABB)
    (hr : r = SweptAABB o2.aabb o1.aabb (o2.velocity.mulScalar dt) nx0 ny0)
    (hct : r.time = TVal.fin ct) :
    (0 ≤ 1 - ct →
      update nx0 ny0 obj1 obj2 dt =
        ((o1.Update (ct * dt)).Update ((1 - ct) * dt),
         GameObject.Update
           { o2.Update (ct * dt) with velocity := reflectByNormals r o2.velocity }
           ((1 - ct) * dt))) ∧
    (1 - ct < 0 →
      update nx0 ny0 obj1 obj2 dt = (o1.Update dt, o2.Update dt)) := by
  subst h1
  subst h2
  subst hr
  constructor <;> intro h
  · simp only [update, updateAfterBoundary]
    rw [hct]
    simp only [timeAsRat]
    rw [if_pos h]
  · simp only [update, updateAfterBoundary]
    rw [hct]
    simp only [timeAsRat]
    rw [if_neg (not_le.mpr h)]

/-- Witness for C3: the startup configuration with `dt = 0.012` finds no
collision (the swept test returns the sentinel `2.0`, so `1 - ct < 0`) and
both bodies advance by the full `dt`. -/
theorem update_split_response_witness :
    (SweptAABB ((boundaryBounce initObj2).CalculateAABB).aabb
        (initObj1.CalculateAABB).aabb
        (((boundaryBounce initObj2).CalculateAABB).velocity.mulScalar (12/1000)) 5 7).time
      = TVal.fin 2 ∧
    update 5 7 initObj1 initObj2 (12/1000) =
      ((initObj1.CalculateAABB).Update (12/1000),
       ((boundaryBounce initObj2).CalculateAABB).Update (12/1000)) := by
  have hct : (SweptAABB ((boundaryBounce initObj2).CalculateAABB).aabb
      (initObj1.CalculateAABB).aabb
      (((boundaryBounce initObj2).CalculateAABB).velocity.mulScalar (12/1000)) 5 7).time
      = TVal.fin 2 := by
    norm_num [SweptAABB, noCollision, entryTime, exitTime, xEntryTime, yEntryTime,
      xExitTime, yExitTime, xDistanceEntry, xDistanceExit, yDistanceEntry, yDistanceExit,
      fmax, fabsf, TVal.lt, TVal.bmax, TVal.bmin, initObj1, initObj2, boundaryBounce,
      GameObject.CalculateAABB, Vec3.mulScalar]
  exact ⟨hct,
    (update_split_response 5 7 initObj1 initObj2
      (initObj1.CalculateAABB) ((boundaryBounce initObj2).CalculateAABB)
      (12/1000) 2 _ rfl rfl rfl hct).2 (by norm_num)⟩

/-! ## Claims about the fixed-timestep scheduler -/

/-- The catch-up loop subtracts `physicsStep` once per counted
`update(physicsStep)` call and stops as soon as the accumulator is below
one step: the remainder is below `physicsStep` and the original
accumulator equals `physicsStep * count + remainder`. -/
theorem drain_spec (acc : ℚ) :
    (drain acc).2 < physicsStep ∧
    acc = physicsStep * ((drain acc).1 : ℚ) + (drain acc).2 := by
  induction acc using drain.induct with
  | case1 acc h ih =>
      rw [drain, dif_pos h]
      refine ⟨ih.1, ?_⟩
      have h2 := ih.2
      push_cast
      push_cast at h2
      linarith
  | case2 acc h =>
      rw [drain, dif_neg h]
      exact ⟨not_le.mp h, by push_cast; ring⟩

/-- Claim C8 (amended): `checkTime` processes a frame only when the
measured delta exceeds `physicsStep`; in that case it adds the delta,
clamped to at most `0.25`, to the accumulator and invokes
`update(physicsStep)` exactly once per fixed step while the accumulator is
at least `physicsStep` (the `drain` loop, whose bookkeeping is
`drain_spec`), carrying the sub-step remainder; otherwise it leaves the
accumulator untouched and runs no update.  A measured delta of `0.05`
with fixed step `0.012` produces exactly 4 update calls and leaves
`0.002` in the accumulator. -/
theorem checkTime_behavior (acc dt : ℚ) :
    (physicsStep < dt →
      checkTime acc dt = drain (acc + (if 1/4 < dt then 1/4 else dt))) ∧
    (¬ physicsStep < dt → checkTime acc dt = (0, acc)) ∧
    ((drain acc).2 < physicsStep ∧
      acc = physicsStep * ((drain acc).1 : ℚ) + (drain acc).2) ∧
    checkTime 0 (1/20) = (4, 1/500) := by
  refine ⟨fun h => ?_, fun h => ?_, drain_spec acc, ?_⟩
  · simp only [checkTime]
    rw [if_pos h]
  · simp only [checkTime]
    rw [if_neg h]
  · have d0 : drain (1/500) = (0, 1/500) := by
      rw [drain, dif_neg (by norm_num [physicsStep])]
    have d1 : drain (7/500) = (1, 1/500) := by
      rw [drain, dif_pos (by norm_num [physicsStep])]
      have hs : (7:ℚ)/500 - physicsStep = 1/500 := by norm_num [physicsStep]
      rw [hs, d0]
    have d2 : drain (13/500) = (2, 1/500) := by
      rw [drain, dif_pos (by norm_num [physicsStep])]
      have hs : (13:ℚ)/500 - physicsStep = 7/500 := by norm_num [physicsStep]
      rw [hs, d1]
    have d3 : drain (19/500) = (3, 1/500) := by
      rw [drain, dif_pos (by norm_num [physicsStep])]
      have hs : (19:ℚ)/500 - physicsStep = 13/500 := by norm_num [physicsStep]
      rw [hs, d2]
    have d4 : drain (1/20) = (4, 1/500) := by
      rw [drain, dif_pos (by norm_num [physicsStep])]
      have hs : (1:ℚ)/20 - physicsStep = 19/500 := by norm_num [physicsStep]
      rw [hs, d3]
    simp only [checkTime]
    rw [if_pos (show physicsStep < 1/20 by norm_num [physicsStep])]
    rw [if_neg (show ¬ ((1:ℚ)/4 < 1/20) by norm_num)]
    have hz : (0:ℚ) + 1/20 = 1/20 := by norm_num
    rw [hz, d4]

/-- Witness for C8 (amended): the `0.05` frame exceeds the step, is not
clamped, and drains to 4 updates with `0.002` left. -/
theorem checkTime_behavior_witness :
    physicsStep < 1/20 ∧
    checkTime 0 (1/20) = drain (0 + (if (1:ℚ)/4 < 1/20 then 1/4 else 1/20)) ∧
    checkTime 0 (1/20) = (4, 1/500) :=
  ⟨by norm_num [physicsStep],
   (checkTime_behavior 0 (1/20)).1 (by norm_num [physicsStep]),
   (checkTime_behavior 0 (1/20)).2.2.2⟩

/-- Counterexample to C8 as stated: on a frame whose measured delta
(`0.002`) does not exceed `physicsStep`, the source's `if (dt > physicsStep)`
guard skips the frame entirely — nothing is added to the accumulator
(`0.011` stays `0.011`) and no update runs — whereas the claim's
"on every frame, add the clamped delta then drain" behavior
(`checkTimeClaimed`) would add it, reach `0.013 ≥ 0.012`, and run one
update leaving `0.001`. -/
theorem checkTime_cex :
    checkTime (11/1000) (2/1000) = (0, 11/1000) ∧
    checkTimeClaimed (11/1000) (2/1000) = (1, 1/1000) ∧
    checkTime (11/1000) (2/1000) ≠ checkTimeClaimed (11/1000) (2/1000) := by
  have h1 : checkTime (11/1000) (2/1000) = (0, 11/1000) := by
    simp only [checkTime]
    rw [if_neg (by norm_num [physicsStep])]
  have h2 : checkTimeClaimed (11/1000) (2/1000) = (1, 1/1000) := by
    have e0 : drain (1/1000) = (0, 1/1000) := by
      rw [drain, dif_neg (by norm_num [physicsStep])]
    have e1 : drain (13/1000) = (1, 1/1000) := by
      rw [drain, dif_pos (by norm_num [physicsStep])]
      have hs : (13:ℚ)/1000 - physicsStep = 1/1000 := by norm_num [physicsStep]
      rw [hs, e0]
    simp only [checkTimeClaimed]
    rw [if_neg (show ¬ ((1:ℚ)/4 < 2/1000) by norm_num)]
    have hz : (11:ℚ)/1000 + 2/1000 = 13/1000 := by norm_num
    rw [hz, e1]
  refine ⟨h1, h2, ?_⟩
  rw [h1, h2]
  intro hcon
  have := congrArg Prod.fst hcon
  simp at this

end SweptAABB2D
